import Mathlib

/-!
Verification of ctagsplugin.py (a Sublime Text ctags plugin).

The definitions below are a shallow embedding of the plugin's own code.
External collaborators (the Sublime view, the filesystem, settings, the
external ctags builder) appear as explicit parameters carrying exactly the
facts the embedded code consults, mirroring the calls the Python source
makes.  Machine-level details that Python abstracts away (its `repr`/`eval`
round-trip of regions, string hashing inside `set`) are noted at the
definition they affect.
-/

/-! ## Navigation history (JumpBack / JumpBackListener) -/

/-- A Sublime selection region as the plugin stores it: the pair of the
region's begin and end offsets.  `JumpBack` keeps regions as `repr` strings
and restores them with `eval`, which round-trips the pair unchanged, so the
model keeps the pair itself. -/
abbrev Region := Int × Int

/-- One modification-history entry, as pushed by
`JumpBackListener.on_modified`: `(view.file_name(), sel[0])`.  The file name
is `None` (here `none`) for a buffer that has never been saved. -/
abbrev ModEntry := Option String × Region

/-- `different_mod_area(f1, f2, r1, r2)`: two recorded positions lie in
different modification areas when their files differ or their selection
starts are 40 or more apart. -/
def differentModArea (f1 f2 : Option String) (r1 r2 : Region) : Bool :=
  let same_file : Bool := f1 == f2
  let same_region : Bool := decide ((r1.1 - r2.1).natAbs < 40)
  !same_file || !same_region

/-- The `for i, (f, r) in enumerate(JumpBack.mods)` scan inside
`JumpBack.lastModifications`: starting from entry `e` at index `i`, stop at
the first remaining entry lying in a different modification area from the
starting entry (`p e = true` breaks the loop).  When no entry differs, the
Python loop falls off the end with the loop variables still holding the last
entry and its index, which is what the no-more-entries case returns. -/
def scanBoundary (p : ModEntry → Bool) : ModEntry → List ModEntry → Nat → Nat × ModEntry
  | e, [], i => (i, e)
  | e, e' :: rest, i => if p e then (i, e) else scanBoundary p e' rest (i + 1)

/-- Result of one `JumpBack.lastModifications` call: the new
`JumpBack.mods` stack and the `(file, region)` passed to `self.jump`
(`none` when the method returns without navigating). -/
structure ModResult where
  mods : List ModEntry
  jump : Option ModEntry
deriving DecidableEq, Repr

/-- `JumpBack.lastModifications`: `cf` and `cr` are the current view's file
name and first selection, the list is `JumpBack.mods` (most recent first).
The method pops the head as the starting entry `(sf, sr)`, returns at once
when its file is `None`, otherwise scans the remaining entries for the
first one in a different modification area (`del JumpBack.mods[:i]` then
removes everything before it), picks the jump target, conditionally
re-inserts the target at the front, and jumps. -/
def lastModifications (cf : Option String) (cr : Region) : List ModEntry → ModResult
  | [] => ⟨[], none⟩
  | (sf, sr) :: rest =>
    if sf = none then ⟨rest, none⟩
    else
      let inDiff := differentModArea sf cf cr sr
      match rest with
      | [] => ⟨[(sf, sr)], some (sf, sr)⟩
      | e :: es =>
        let ib := scanBoundary (fun en => differentModArea sf en.1 sr en.2) e es 0
        let rest' := rest.drop ib.1
        let target := if !inDiff then ib.2 else (sf, sr)
        let mods' := if inDiff || rest'.isEmpty then target :: rest' else rest'
        ⟨mods', some target⟩

/-- One jump-history entry, as pushed by `JumpBack.append`:
`(view.file_name(), repr(view.sel()[0]))`; `append` only pushes when the
view has a file name, so the stored file is never `None`. -/
abbrev JumpEntry := String × Region

/-- Result of `JumpBack.run` on the plain (`to != 'last_modification'`)
path: the new `JumpBack.last` stack, the status message shown (if any) and
the jump performed (if any). -/
structure JumpResult where
  last : List JumpEntry
  message : Option String
  jump : Option JumpEntry
deriving DecidableEq, Repr

/-- `JumpBack.run` with `to` not requesting last-modification handling: on
an empty stack it shows 'JumpBack buffer empty' and does not navigate;
otherwise `JumpBack.last.pop()` removes the most recent entry and the
command jumps to it. -/
def jumpBackRun (last : List JumpEntry) : JumpResult :=
  match last.getLast? with
  | none => ⟨[], some "JumpBack buffer empty", none⟩
  | some e => ⟨last.dropLast, none, some e⟩

/-- `JumpBack.append(view)`: record a jump origin.  Entries go to the end
of `JumpBack.last` (`list.append`), and only when the view has a file
name. -/
def jumpBackAppend (last : List JumpEntry) (fn : Option String) (sel : Region) :
    List JumpEntry :=
  match fn with
  | none => last
  | some f => last ++ [(f, sel)]

/-- `JumpBackListener.on_modified(view)`: when the selection list is
non-empty, insert `(view.file_name(), sel[0])` at index 0 of
`JumpBack.mods` and truncate with `del JumpBack.mods[100:]`; with an empty
selection list nothing happens. -/
def onModified (mods : List ModEntry) (fn : Option String) (sel : List Region) :
    List ModEntry :=
  match sel with
  | [] => mods
  | s :: _ => ((fn, s) :: mods).take 100

/-! ## Locating tag files (find_tags_relative_to, alternate_tags_paths) -/

/-- The filesystem facts consulted by the path-resolution code:
`os.path.exists` and `os.path.isdir`. -/
structure FileSystem where
  pathExists : String → Bool
  isDir : String → Bool

/-- `find_tags_relative_to(file_name, tag_file)`.  `dirs` stands for
`os.path.dirname(os.path.normpath(file_name)).split(os.path.sep)` (the
`dirname` / `normpath` / `split` calls are OS collaborators applied before
the loop; the separator is written `/` here).  The loop joins
`dirs + [tag_file]`, returns the joined path when it exists and is not a
directory, and otherwise pops the last component (`dirs.pop()`), returning
`None` once the components run out. -/
def findTagsRelativeTo (fs : FileSystem) (tagFile : String) (dirs : List String) :
    Option String :=
  match dirs with
  | [] => none
  | d :: ds =>
    let joined := String.intercalate "/" ((d :: ds) ++ [tagFile])
    if fs.pathExists joined && !fs.isDir joined then some joined
    else findTagsRelativeTo fs tagFile (d :: ds).dropLast
termination_by dirs.length
decreasing_by simp [List.length_dropLast]

/-- The directory-component lists `find_tags_relative_to` visits, deepest
first: all of `dirs`, then `dirs` with its last component popped, and so on
down to a single component. -/
def ancestorDirs : List String → List (List String)
  | [] => []
  | d :: ds => (d :: ds) :: ancestorDirs (d :: ds).dropLast
termination_by l => l.length
decreasing_by simp [List.length_dropLast]

/-- Everything `alternate_tags_paths` consults besides the primary tags
file: filesystem existence, the line-split contents of the adjacent
`_search_paths` file, the `extra_tag_paths` setting (a list of
`((selector, platform), path)` triples), whether the view's cursor matches
a selector, `sublime.platform()`, the `extra_tag_files` setting, the
window's folders, the `tag_file` setting, and the `os.path` helpers
(`normpathJoin a b` models `os.path.normpath(os.path.join(a, b))`). -/
structure TagPathEnv where
  pathExists : String → Bool
  readLines : String → List String
  extraTagPaths : List ((String × String) × String)
  matchSel : String → Bool
  platform : String
  extraTagFiles : List String
  folders : List String
  tagFileSetting : String
  dirname : String → String
  normpathJoin : String → String → String

/-- The `search_paths` list that `alternate_tags_paths` accumulates, in
discovery order, before its final conversion to a Python `set`: the primary
tags file, then the `_search_paths` entries, then the matching
`extra_tag_paths`, then `extra_tag_files` joined to the tags file's
directory, then for every open folder the `tag_file` setting and the
`extra_tag_files` joined to that folder. -/
def searchPathsList (env : TagPathEnv) (tagsFile : String) : List String :=
  let tagsPaths := tagsFile ++ "_search_paths"
  [tagsFile]
    ++ (if env.pathExists tagsPaths then env.readLines tagsPaths else [])
    ++ ((env.extraTagPaths.filter
          (fun spp => env.matchSel spp.1.1 && spp.1.2 == env.platform)).map
            (fun spp => spp.2))
    ++ (if env.pathExists tagsPaths then
          env.extraTagFiles.map (fun ef => env.normpathJoin (env.dirname tagsFile) ef)
        else [])
    ++ env.folders.flatMap (fun folder =>
          env.normpathJoin folder env.tagFileSetting ::
            env.extraTagFiles.map (fun ef => env.normpathJoin folder ef))

/-- The value `alternate_tags_paths` actually returns:
`set(p for p in search_paths if p and os.path.exists(p))`.  A Python `set`
is an unordered collection whose iteration order depends on string hashing,
so it is modelled as a `Finset`: exactly the information the caller
receives. -/
def alternateTagsPaths (env : TagPathEnv) (tagsFile : String) : Finset String :=
  ((searchPathsList env tagsFile).filter
    (fun p => !(p == "") && env.pathExists p)).toFinset

/-- Environment of the order-loss evaluation: tags file `P` at hand, one
open folder whose joined tag-file path is `Q`, both existing. -/
def envPQ : TagPathEnv :=
  { pathExists := fun p => p == "P" || p == "Q"
    readLines := fun _ => []
    extraTagPaths := []
    matchSel := fun _ => false
    platform := "linux"
    extraTagFiles := []
    folders := ["F"]
    tagFileSetting := "tags"
    dirname := fun _ => ""
    normpathJoin := fun _ _ => "Q" }

/-- Mirror image of `envPQ`: tags file `Q` at hand, the folder contributing
`P`. -/
def envQP : TagPathEnv :=
  { pathExists := fun p => p == "P" || p == "Q"
    readLines := fun _ => []
    extraTagPaths := []
    matchSel := fun _ => false
    platform := "linux"
    extraTagFiles := []
    folders := ["F"]
    tagFileSetting := "tags"
    dirname := fun _ => ""
    normpathJoin := fun _ _ => "P" }

/-! ## Scrolling to a tag (find_with_scope, find_source, follow_tag_path) -/

/-- A `sublime.Region` as the scrolling code uses it: `a` is `begin()` and
`b` is `end()`. -/
structure SRegion where
  a : Int
  b : Int
deriving DecidableEq, Repr

/-- The text-buffer collaborator: `view.size()`, `view.find(pattern,
start, flags)` (returning `None` when there is no match at or after
`start`, as in the Sublime Text 2 API this code checks with `not f` and
`in (None, ...)`), and `view.match_selector(point, selector)`. -/
structure SView where
  size : Int
  find : String → Int → Int → Option SRegion
  matchSelector : Int → String → Bool

/-- Python failure modes of the scrolling code.  `unboundLocal` models the
`UnboundLocalError` raised when `find_with_scope` executes `return f` with
the loop body never having run; `attributeError` models calling `.begin()`
on `None`; `nonTermination` is exhaustion of the model's loop fuel. -/
inductive PyErr where
  | unboundLocal
  | attributeError
  | nonTermination
deriving DecidableEq, Repr

/-- `sublime.LITERAL`, passed through to `view.find` unchanged. -/
def LITERAL : Int := 1

/-- `ENTITY_SCOPE` from ctagsplugin.py. -/
def ENTITY_SCOPE : String := "entity.name.function, entity.name.type, meta.toc-list"

/-- The `while start_pos < max_pos` loop of `find_with_scope`; `fcur` is
the current value of the Python local `f` (`none` while still unbound).
Each pass searches for `pattern[:-5] + chr(36)` from `start_pos`, breaks
returning `f` when nothing is found or when the match's selector test
equals `cond`, and otherwise retries from the match's end.  Falling out of
the `while` guard with `f` never assigned reproduces Python's
`UnboundLocalError` on the final `return f`. -/
def findWithScopeLoop (view : SView) (pattern scope : String) (cond : Bool)
    (flags : Int) : Nat → Int → Option (Option SRegion) → Except PyErr (Option SRegion)
  | 0, _, _ => .error .nonTermination
  | fuel + 1, startPos, fcur =>
    if startPos < view.size then
      match view.find (pattern.dropRight 5 ++ "$") startPos flags with
      | none => .ok none
      | some f =>
        if view.matchSelector f.a scope == cond then .ok (some f)
        else findWithScopeLoop view pattern scope cond flags fuel f.b (some (some f))
    else
      match fcur with
      | none => .error .unboundLocal
      | some f => .ok f

/-- `find_with_scope(view, pattern, scope, start_pos, cond, flags)`. -/
def findWithScope (view : SView) (pattern scope : String) (startPos : Int)
    (cond : Bool) (flags : Int) : Except PyErr (Option SRegion) :=
  findWithScopeLoop view pattern scope cond flags (view.size.toNat + 2) startPos none

/-- `find_source(view, pattern, start_at, flags)`: search outside comments
and strings (the default `flags` at the Python definition is
`sublime.LITERAL`; callers here always pass `flags` explicitly). -/
def findSource (view : SView) (pattern : String) (startAt : Int) (flags : Int) :
    Except PyErr (Option SRegion) :=
  findWithScope view pattern "comment,string" startAt false flags

/-- The characters `RE_SPECIAL_CHARS` matches (braces written with
character escapes). -/
def specialChars : List Char :=
  ['\\', '*', '+', '?', '|', '\x7b', '\x7d', '[', ']', '(', ')', '^', '$', '.', '#', ' ']

/-- `escape_regex(s)`: prefix every special character with a backslash. -/
def escapeRegex (s : String) : String :=
  String.mk (s.data.flatMap (fun c => if c ∈ specialChars then ['\\', c] else [c]))

/-- The `while True` loop inside `follow_tag_path` for one ancestor-scope
string `p`: append the next `find_source` result to `regions`, and stop
(filtering the `None`s out of `regions`) when that result is `None`,
repeats the previous region, or sits on an entity scope.  Re-entry only
happens with a fresh non-`None` region at the end of `regions`, so the
`attributeError` branch is unreachable from `followTagPath`. -/
def followTagPathLoop (view : SView) (p : String) :
    Nat → List (Option SRegion) → Except PyErr (List (Option SRegion))
  | 0, _ => .error .nonTermination
  | fuel + 1, regions =>
    match regions.getLast?.getD none with
    | none => .error .attributeError
    | some lr =>
      match findSource view p lr.a LITERAL with
      | .error e => .error e
      | .ok f =>
        let regions' := regions ++ [f]
        if f = none ∨ f = some lr then .ok (regions'.filter Option.isSome)
        else
          match f with
          | none => .ok (regions'.filter Option.isSome)
          | some fr =>
            if view.matchSelector fr.a ENTITY_SCOPE then .ok (regions'.filter Option.isSome)
            else followTagPathLoop view p fuel regions'

/-- The `for p in list(tag_path)[1:-1]` loop of `follow_tag_path`. -/
def followTagPathOuter (view : SView) :
    List String → List (Option SRegion) → Except PyErr (List (Option SRegion))
  | [], regions => .ok regions
  | p :: ps, regions =>
    match followTagPathLoop view p (view.size.toNat + 2) regions with
    | .error e => .error e
    | .ok regions' => followTagPathOuter view ps regions'

/-- `follow_tag_path(view, tag_path, pattern)` (with the `debug` setting
off, which only adds visual region marks).  `regions` always contains the
initial `Region(0, 0)` and the final filter only removes `None`s, so the
`foldl max 0` below computes Python's `max(regions, key=begin)`. -/
def followTagPath (view : SView) (tagPath : List String) (pattern : String) :
    Except PyErr Int :=
  match followTagPathOuter view (tagPath.drop 1).dropLast [some ⟨0, 0⟩] with
  | .error e => .error e
  | .ok regions =>
    let startAt := ((regions.filterMap id).map SRegion.a).foldl max 0 - 1
    match findSource view ("^" ++ escapeRegex pattern) startAt 0 with
    | .error e => .error e
    | .ok patternRegion =>
      .ok (match patternRegion with
           | some r => r.a - 1
           | none => startAt)

/-- An empty buffer: no text, no matches anywhere. -/
def emptyView : SView :=
  { size := 0, find := fun _ _ _ => none, matchSelector := fun _ _ => false }

/-! ## The threaded rebuild guard (threaded decorator, RebuildTags) -/

/-- State of the `threaded` decorator wrapping `RebuildTags.build_ctags`:
`running` is `func.running` and `active` counts live build worker
threads. -/
structure BuildGuard where
  running : Bool
  active : Nat
deriving DecidableEq, Repr

/-- What one interaction with the `threaded` wrapper shows: a worker
thread was started, the busy status message
('Already running CTags!') was shown, or a worker finished. -/
inductive GuardObs where
  | started
  | busy
  | finished
deriving DecidableEq, Repr

/-- Events at the guard: `invoke` is a call of the wrapped `build_ctags`;
`finish` is the `finally: func.running = 0` of a worker thread
completing. -/
inductive GuardOp where
  | invoke
  | finish
deriving DecidableEq, Repr

/-- One step of the `threaded` guard.  A call while `func.running` shows
the busy message and changes nothing (no new thread, nothing queued); a
call while idle sets the flag and starts one worker; a finishing worker
clears the flag. -/
def guardStep (st : BuildGuard) : GuardOp → BuildGuard × GuardObs
  | .invoke =>
    if !st.running then (⟨true, st.active + 1⟩, .started)
    else (st, .busy)
  | .finish => (⟨false, st.active - 1⟩, .finished)

/-- Guard states reachable from the initial state (`func.running = 0`, no
worker thread); a `finish` event can only come from a live worker. -/
inductive GuardReachable : BuildGuard → Prop
  | init : GuardReachable ⟨false, 0⟩
  | invoke {st : BuildGuard} : GuardReachable st →
      GuardReachable (guardStep st .invoke).1
  | finish {st : BuildGuard} : GuardReachable st → st.active ≠ 0 →
      GuardReachable (guardStep st .finish).1

/-! ## The rebuild batch loop (RebuildTags.build_ctags) -/

/-- Observable events of one `RebuildTags.build_ctags` run: the
'Building CTags' message for a path, the 'Finished building' message for a
written tag file, the cache clear
`tags_cache[os.path.dirname(tag_file)].clear()`, an error dialog, and the
final `GetAllCTagsList.ctags_list = []`. -/
inductive BuildEvent where
  | building (path : String)
  | built (tagFile : String)
  | clearedCache (root : String)
  | errorShown (msg : String)
  | clearedCtagsList
deriving DecidableEq, Repr

/-- The `for path in paths` loop of `build_ctags`.  `build` is the
external `ctags.build_ctags` call, which either returns the tag file it
wrote or raises an `EnvironmentError` / `IOError` whose formatted message
the plugin shows via `error_message` before returning at once; on success
`tags_built` announces the file and clears the cache for its directory;
after the whole loop the cached autocomplete list is cleared. -/
def buildCtagsEvents (build : String → Except String String)
    (dirname : String → String) : List String → List BuildEvent
  | [] => [.clearedCtagsList]
  | p :: ps =>
    .building p ::
      match build p with
      | .error msg => [.errorShown msg]
      | .ok result =>
        .built result :: .clearedCache (dirname result) ::
          buildCtagsEvents build dirname ps

/-! ## The symbols cache (tags_cache, ShowSymbols, tags_built) -/

/-- The process-wide `tags_cache`, with every stored value tagged by the
logical time of its computation: entries are `((base_path, key), time)`.
`clock` is the next fresh time. -/
structure CacheState where
  entries : List ((String × String) × Nat)
  clock : Nat
deriving DecidableEq, Repr

/-- Operations touching `tags_cache`: a `ShowSymbols.run` query (`query
base_path key`, the key being the joined file list or the language
suffix), and the completion of a successful `build_ctags` for a tag file
whose directory is `root` (`rebuild root`, whose `tags_built` runs
`tags_cache[os.path.dirname(tag_file)].clear()`). -/
inductive CacheOp where
  | query (root key : String)
  | rebuild (root : String)
deriving DecidableEq, Repr

/-- `key in tags_cache[base_path]` and the associated value. -/
def cacheLookup (entries : List ((String × String) × Nat)) (root key : String) :
    Option Nat :=
  (entries.find? (fun e => e.1.1 == root && e.1.2 == key)).map (fun e => e.2)

/-- One step.  A query returns the cached value on a hit
('loading symbols from cache') and otherwise computes a fresh value,
stores it under `(base_path, key)` and returns it ('loading symbols from
file'); a successful rebuild for `root` clears every entry of that root
and touches nothing else. -/
def cacheStep (st : CacheState) : CacheOp → CacheState × Option Nat
  | .query root key =>
    match cacheLookup st.entries root key with
    | some v => (st, some v)
    | none => (⟨((root, key), st.clock) :: st.entries, st.clock + 1⟩, some st.clock)
  | .rebuild root =>
    (⟨st.entries.filter (fun e => !(e.1.1 == root)), st.clock⟩, none)

/-- Run a list of operations, collecting each step's returned value. -/
def cacheRun (st : CacheState) : List CacheOp → CacheState × List (Option Nat)
  | [] => (st, [])
  | op :: ops =>
    let so := cacheStep st op
    let rest := cacheRun so.1 ops
    (rest.1, so.2 :: rest.2)

/-! ## Theorems -/

/-- C10: if the most recent modification-history entry has a `None` file
(the edit happened in an unsaved buffer), `JumpBack.lastModifications`
removes that entry and returns without navigating and without any further
change to the remaining stack. -/
theorem none_file_mod_entry_popped (cf : Option String) (cr : Region) (r : Region)
    (rest : List ModEntry) :
    lastModifications cf cr ((none, r) :: rest) = ⟨rest, none⟩ := by
  simp [lastModifications]

/-- C6: the jump history is a LIFO stack with a status message on empty:
recording jump A then jump B, the first go-back navigates to B leaving
only A, the second navigates to A leaving the stack empty, and a third
go-back shows 'JumpBack buffer empty' and performs no navigation. -/
theorem jump_history_lifo (fa fb : String) (ra rb : Region) :
    jumpBackRun (jumpBackAppend (jumpBackAppend [] (some fa) ra) (some fb) rb)
        = ⟨[(fa, ra)], none, some (fb, rb)⟩
    ∧ jumpBackRun [(fa, ra)] = ⟨[], none, some (fa, ra)⟩
    ∧ jumpBackRun [] = ⟨[], some "JumpBack buffer empty", none⟩ := by
  refine ⟨?_, ?_, ?_⟩ <;> simp [jumpBackAppend, jumpBackRun]

/-- C9: a buffer-edit event with a non-empty selection inserts the
`(file, first-selection)` entry at index 0 of the modification history and
truncates to 100 entries, so the stack stays bounded by 100 and ordered
most recent first; an event with an empty selection changes nothing. -/
theorem on_modified_bounds (mods : List ModEntry) (fn : Option String) (s : Region)
    (rest : List Region) :
    onModified mods fn (s :: rest) = ((fn, s) :: mods).take 100
    ∧ (onModified mods fn (s :: rest)).head? = some (fn, s)
    ∧ (onModified mods fn (s :: rest)).length ≤ 100
    ∧ (onModified mods fn (s :: rest)).tail = mods.take 99
    ∧ onModified mods fn [] = mods
    ∧ ∀ sel : List Region, (onModified mods fn sel).length ≤ max mods.length 100 := by
  refine ⟨rfl, ?_, ?_, ?_, rfl, ?_⟩
  · rw [onModified, show (100 : Nat) = 99 + 1 from rfl, List.take_succ_cons]
    rfl
  · simp [onModified, List.length_take]
  · rw [onModified, show (100 : Nat) = 99 + 1 from rfl, List.take_succ_cons]
    rfl
  · intro sel
    cases sel with
    | nil => simp [onModified]
    | cons s r => simp [onModified, List.length_take]

/-- C2 (the code at a failing input): `alternate_tags_paths` builds its
candidates in discovery order but returns them through a Python `set`,
whose iteration order is hash-dependent and unrelated to insertion order.
Two environments with opposite discovery orders (primary tags file first
versus last) produce the identical return value, so the value handed to
the multi-index scan in `JumpToDefinition.run` cannot preserve discovery
order or give the closest-to-file tags file precedence. -/
theorem alternate_tags_paths_forgets_order :
    alternateTagsPaths envPQ "P" = alternateTagsPaths envQP "Q"
    ∧ searchPathsList envPQ "P" = ["P", "Q"]
    ∧ searchPathsList envQP "Q" = ["Q", "P"] := by decide

/-- C4 (the code at a failing input): on an empty buffer
(`view.size() == 0`) with a three-element tag path, the first
`find_source` call enters `find_with_scope` with `start_pos = 0` and
`max_pos = 0`, the `while` body never runs, and `return f` reads an
unassigned local — an `UnboundLocalError` escapes `follow_tag_path`
instead of some offset being returned. -/
theorem follow_tag_path_raises_on_empty_buffer :
    followTagPath emptyView ["f", "class Foo", "bar"] "x"
      = .error .unboundLocal := by rfl

/-- Invariant of the `threaded` guard: starting from the idle initial
state, the number of live build workers is 1 exactly while `func.running`
is set, and 0 otherwise. -/
theorem guard_reachable_active (st : BuildGuard) (h : GuardReachable st) :
    st.active = if st.running then 1 else 0 := by
  induction h with
  | init => rfl
  | @invoke st h ih =>
    by_cases hr : st.running
    · simpa [guardStep, hr] using ih
    · simp only [Bool.not_eq_true] at hr
      simp [guardStep, hr] at ih ⊢
      omega
  | @finish st h hne ih =>
    by_cases hr : st.running
    · simp [hr] at ih
      simp [guardStep, ih]
    · simp only [Bool.not_eq_true] at hr
      rw [hr] at ih
      simp at ih
      exact absurd ih hne

/-- C5: at most one index rebuild executes at a time.  In every reachable
guard state there is at most one live build worker; an invocation while
`func.running` is set only shows the busy status message and leaves the
state unchanged (no second worker, nothing queued); an invocation while
idle starts exactly one worker; and immediately after a worker finishes, a
new invocation starts again. -/
theorem single_flight_rebuild (st : BuildGuard) (h : GuardReachable st) :
    st.active ≤ 1
    ∧ (st.running = true → guardStep st .invoke = (st, .busy))
    ∧ (st.running = false →
        st.active = 0 ∧ guardStep st .invoke = (⟨true, 1⟩, .started))
    ∧ (guardStep (guardStep st .finish).1 .invoke).2 = .started := by
  have hinv := guard_reachable_active st h
  refine ⟨?_, ?_, ?_, ?_⟩
  · by_cases hr : st.running <;> simp [hr] at hinv <;> omega
  · intro hr; simp [guardStep, hr]
  · intro hr
    rw [hr] at hinv
    simp at hinv
    simp [guardStep, hr, hinv]
  · simp [guardStep]

/-- Witness for C5 at the reachable state right after one invocation
(`func.running` set, one worker live). -/
theorem single_flight_rebuild_witness :
    (⟨true, 1⟩ : BuildGuard).active ≤ 1
    ∧ ((⟨true, 1⟩ : BuildGuard).running = true →
        guardStep ⟨true, 1⟩ .invoke = (⟨true, 1⟩, .busy))
    ∧ ((⟨true, 1⟩ : BuildGuard).running = false →
        (⟨true, 1⟩ : BuildGuard).active = 0 ∧
          guardStep ⟨true, 1⟩ .invoke = (⟨true, 1⟩, .started))
    ∧ (guardStep (guardStep ⟨true, 1⟩ .finish).1 .invoke).2 = .started :=
  single_flight_rebuild ⟨true, 1⟩ (GuardReachable.invoke GuardReachable.init)

/-- Auxiliary induction (on a length bound) for the
`find_tags_relative_to` characterization. -/
theorem find_tags_aux (fs : FileSystem) (tagFile : String) :
    ∀ (n : Nat) (dirs : List String), dirs.length ≤ n →
      findTagsRelativeTo fs tagFile dirs
        = ((ancestorDirs dirs).map
              (fun ds => String.intercalate "/" (ds ++ [tagFile]))).find?
            (fun pth => fs.pathExists pth && !fs.isDir pth) := by
  intro n
  induction n with
  | zero =>
    intro dirs h
    have hd : dirs = [] := List.length_eq_zero.mp (Nat.le_zero.mp h)
    subst hd
    simp [findTagsRelativeTo, ancestorDirs]
  | succ n ih =>
    intro dirs h
    cases dirs with
    | nil => simp [findTagsRelativeTo, ancestorDirs]
    | cons d ds =>
      rw [findTagsRelativeTo, ancestorDirs]
      simp only [List.map_cons]
      by_cases hp : (fs.pathExists (String.intercalate "/" ((d :: ds) ++ [tagFile]))
          && !fs.isDir (String.intercalate "/" ((d :: ds) ++ [tagFile]))) = true
      · rw [if_pos hp]
        symm
        apply List.find?_cons_of_pos
        exact hp
      · rw [if_neg hp]
        rw [ih (d :: ds).dropLast
          (by simp only [List.length_dropLast, List.length_cons] at h ⊢; omega)]
        symm
        apply List.find?_cons_of_neg
        exact hp

/-- C7: for every filesystem, tag-file name and directory-component list,
`find_tags_relative_to` returns the joined path of the first (deepest)
ancestor directory at which the tag file exists and is not itself a
directory — the first satisfying candidate along the deepest-first
ancestor walk — and `none` (a normal result, not an error) when no
ancestor up to the root has one. -/
theorem find_tags_walks_up (fs : FileSystem) (tagFile : String) (dirs : List String) :
    findTagsRelativeTo fs tagFile dirs
      = ((ancestorDirs dirs).map
            (fun ds => String.intercalate "/" (ds ++ [tagFile]))).find?
          (fun pth => fs.pathExists pth && !fs.isDir pth) :=
  find_tags_aux fs tagFile dirs.length dirs le_rfl

/-- Events of a batch whose first `ps` paths all build successfully: each
produces its building / built / cache-clear triple, and the loop carries
on with the rest of the batch. -/
theorem build_ctags_ok_run (build : String → Except String String)
    (dirname : String → String) (res : String → String) :
    ∀ (ps : List String), (∀ x ∈ ps, build x = .ok (res x)) → ∀ tail,
      buildCtagsEvents build dirname (ps ++ tail)
        = ps.flatMap (fun x =>
            [.building x, .built (res x), .clearedCache (dirname (res x))])
          ++ buildCtagsEvents build dirname tail := by
  intro ps
  induction ps with
  | nil => intro h tail; simp
  | cons a as ih =>
    intro h tail
    have ha := h a (by simp)
    have ih' := ih (fun x hx => h x (by simp [hx])) tail
    simp [buildCtagsEvents, ha, ih']

/-- C8: if `ctags.build_ctags` raises an I/O or environment error for path
`p` in a batch, after a prefix `ps` of successful paths, then
`build_ctags` shows the error message and returns at once: the produced
events are exactly the prefix's triples followed by the announcement and
the error dialog for `p` — independent of the remaining paths `qs`, which
are never processed and whose cache roots are never cleared, and the
cached autocomplete list is not cleared either. -/
theorem build_ctags_fail_fast (build : String → Except String String)
    (dirname : String → String) (res : String → String)
    (ps qs : List String) (p msg : String)
    (hok : ∀ x ∈ ps, build x = .ok (res x)) (hfail : build p = .error msg) :
    buildCtagsEvents build dirname (ps ++ p :: qs)
        = ps.flatMap (fun x =>
            [.building x, .built (res x), .clearedCache (dirname (res x))])
          ++ [.building p, .errorShown msg]
    ∧ buildCtagsEvents build dirname (ps ++ p :: qs)
        = buildCtagsEvents build dirname (ps ++ [p]) := by
  have h1 := build_ctags_ok_run build dirname res ps hok (p :: qs)
  have h2 := build_ctags_ok_run build dirname res ps hok [p]
  have hstep : buildCtagsEvents build dirname (p :: qs) = [.building p, .errorShown msg] := by
    simp [buildCtagsEvents, hfail]
  have hstep1 : buildCtagsEvents build dirname [p] = [.building p, .errorShown msg] := by
    simp [buildCtagsEvents, hfail]
  rw [h1, h2, hstep, hstep1]
  exact ⟨rfl, rfl⟩

/-- A toy builder for the C8 witness: path 'good' builds tag file 'G',
every other path fails with message 'boom'. -/
def toyBuild : String → Except String String :=
  fun s => if s = "good" then .ok "G" else .error "boom"

/-- Toy directory map for the C8 witness. -/
def toyDirname : String → String := fun _ => "D"

/-- Witness for C8 on the concrete batch good, bad, later: the prefix
succeeds, 'bad' fails, and the events stop at the error, identical to the
batch without 'later'. -/
theorem build_ctags_fail_fast_witness :
    toyBuild "bad" = .error "boom"
    ∧ buildCtagsEvents toyBuild toyDirname (["good"] ++ "bad" :: ["later"])
        = ["good"].flatMap (fun x =>
            [.building x, .built "G", .clearedCache (toyDirname "G")])
          ++ [.building "bad", .errorShown "boom"]
    ∧ buildCtagsEvents toyBuild toyDirname (["good"] ++ "bad" :: ["later"])
        = buildCtagsEvents toyBuild toyDirname (["good"] ++ ["bad"]) := by
  have h := build_ctags_fail_fast toyBuild toyDirname (fun _ => "G") ["good"] ["later"]
    "bad" "boom" (by intro x hx; simp at hx; subst hx; rfl) rfl
  exact ⟨rfl, h.1, h.2⟩

/-- Freshness propagates: if the clock is at least `c` and every cached
entry under root `r` was computed at time `c` or later, then along any
further operation sequence every answered query for root `r` returns a
value computed at time `c` or later. -/
theorem cacheRun_fresh_root (r : String) (c : Nat) :
    ∀ (post : List CacheOp) (st : CacheState),
      c ≤ st.clock →
      (∀ e ∈ st.entries, e.1.1 = r → c ≤ e.2) →
      ∀ (j : Nat) (k : String) (v : Nat),
        post.get? j = some (.query r k) →
        (cacheRun st post).2.get? j = some (some v) →
        c ≤ v := by
  intro post
  induction post with
  | nil =>
    intro st hc he j k v hop hobs
    simp [cacheRun] at hobs
  | cons op ops ih =>
    intro st hc he j k v hop hobs
    cases j with
    | zero =>
      simp only [List.get?] at hop
      injection hop with hop
      subst hop
      simp only [cacheRun, List.get?] at hobs
      injection hobs with hobs
      cases hl : cacheLookup st.entries r k with
      | none =>
        rw [show cacheStep st (.query r k)
              = (⟨((r, k), st.clock) :: st.entries, st.clock + 1⟩, some st.clock) by
            simp [cacheStep, hl]] at hobs
        simp at hobs
        omega
      | some w =>
        rw [show cacheStep st (.query r k) = (st, some w) by simp [cacheStep, hl]] at hobs
        simp at hobs
        subst hobs
        unfold cacheLookup at hl
        cases hf : st.entries.find? (fun e => e.1.1 == r && e.1.2 == k) with
        | none => rw [hf] at hl; simp at hl
        | some en =>
          rw [hf] at hl
          simp at hl
          have hmem := List.mem_of_find?_eq_some hf
          have hpred := List.find?_some hf
          simp only [Bool.and_eq_true, beq_iff_eq] at hpred
          have := he en hmem hpred.1
          omega
    | succ j =>
      have hop' : ops.get? j = some (.query r k) := hop
      have hobs' : (cacheRun (cacheStep st op).1 ops).2.get? j = some (some v) := hobs
      refine ih (cacheStep st op).1 ?_ ?_ j k v hop' hobs'
      · cases op with
        | query root key =>
          cases hl : cacheLookup st.entries root key with
          | none => simp [cacheStep, hl]; omega
          | some w => simp [cacheStep, hl]; omega
        | rebuild root => simpa [cacheStep] using hc
      · intro e hemem her
        cases op with
        | query root key =>
          cases hl : cacheLookup st.entries root key with
          | none =>
            simp only [cacheStep, hl] at hemem
            simp only [List.mem_cons] at hemem
            cases hemem with
            | inl hh => subst hh; simpa using hc
            | inr hh => exact he e hh her
          | some w =>
            simp only [cacheStep, hl] at hemem
            exact he e hemem her
        | rebuild root =>
          simp only [cacheStep] at hemem
          exact he e (List.mem_of_mem_filter hemem) her

/-- C1: after a successful rebuild for a tag file with directory `r`
(`tags_built` clears `tags_cache[os.path.dirname(tag_file)]`), every later
`ShowSymbols` query against root `r`, under any interleaving of further
queries and rebuilds, is answered with a value computed at or after the
rebuild (`st0.clock ≤ v`).  Every value computed and stored before the
rebuild carries a stamp strictly below its state's clock, so no such
query ever returns a value computed before the rebuild. -/
theorem rebuild_invalidates_symbol_cache (st0 : CacheState) (r : String)
    (post : List CacheOp) (j : Nat) (k : String) (v : Nat)
    (hop : post.get? j = some (.query r k))
    (hobs : (cacheRun (cacheStep st0 (.rebuild r)).1 post).2.get? j = some (some v)) :
    st0.clock ≤ v := by
  refine cacheRun_fresh_root r st0.clock post (cacheStep st0 (.rebuild r)).1
    le_rfl ?_ j k v hop hobs
  intro e hemem her
  exfalso
  simp only [cacheStep] at hemem
  have := List.of_mem_filter hemem
  simp at this
  exact this her

/-- Witness for C1: one stale entry for root `R` computed at time 0, a
rebuild for `R`, then a query for `R`; the answer is the freshly computed
value stamped 1, at the rebuild-time clock. -/
theorem rebuild_invalidates_symbol_cache_witness :
    ([CacheOp.query "R" "k"].get? 0 = some (.query "R" "k")
      ∧ (cacheRun (cacheStep ⟨[(("R", "k"), 0)], 1⟩ (.rebuild "R")).1
          [CacheOp.query "R" "k"]).2.get? 0 = some (some 1))
    ∧ (⟨[(("R", "k"), 0)], 1⟩ : CacheState).clock ≤ 1 :=
  ⟨⟨rfl, by decide⟩,
    rebuild_invalidates_symbol_cache ⟨[(("R", "k"), 0)], 1⟩ "R"
      [CacheOp.query "R" "k"] 0 "k" 1 rfl (by decide)⟩

/-- The boundary index the `lastModifications` scan stops at: the index of
the first entry satisfying `p`, clamped to the last index when no entry
does (the Python loop then ends with the loop variables at the last
entry). -/
theorem scanBoundary_fst (p : ModEntry → Bool) :
    ∀ (es : List ModEntry) (e : ModEntry) (i : Nat),
      (scanBoundary p e es i).1 = i + min (List.findIdx p (e :: es)) es.length := by
  intro es
  induction es with
  | nil => intro e i; simp [scanBoundary]
  | cons e' es' ih =>
    intro e i
    cases hp : p e with
    | true => simp [scanBoundary, hp, List.findIdx_cons]
    | false =>
      simp only [scanBoundary, hp, Bool.false_eq_true, if_false, ih e' (i + 1),
        List.findIdx_cons, cond_false, List.length_cons]
      omega

/-- The boundary entry the `lastModifications` scan stops at is the entry
sitting at the boundary index. -/
theorem scanBoundary_get (p : ModEntry → Bool) :
    ∀ (es : List ModEntry) (e : ModEntry) (i : Nat),
      (e :: es).get? (min (List.findIdx p (e :: es)) es.length)
        = some (scanBoundary p e es i).2 := by
  intro es
  induction es with
  | nil => intro e i; simp [scanBoundary]
  | cons e' es' ih =>
    intro e i
    cases hp : p e with
    | true => simp [scanBoundary, hp, List.findIdx_cons]
    | false =>
      have hmin : min (List.findIdx p (e :: e' :: es')) (e' :: es').length
          = min (List.findIdx p (e' :: es')) es'.length + 1 := by
        simp only [List.findIdx_cons, hp, cond_false, List.length_cons]
        omega
      rw [hmin]
      simp only [scanBoundary, hp, Bool.false_eq_true, if_false, List.get?_cons_succ]
      exact ih e' (i + 1)

/-- C3 (amended): for a non-empty modification stack whose most recent
entry has a file, `lastModifications` pops that entry `(sf, sr)` as the
starting point.  With no further entries it re-inserts the starting entry
and navigates to it.  Otherwise it scans the remaining entries for the
first one in a different modification area — settling on the last entry
when every remaining entry is in the starting area — and removes the
entries before that boundary; the jump target is the starting entry when
the current cursor lies outside the starting entry's area and the boundary
entry otherwise, and only in the outside case is the target re-inserted at
the front (the remaining stack is never empty, so the empty-stack
re-insert clause never fires here). -/
theorem last_modifications_boundary_spec (cf : Option String) (cr : Region)
    (sf : String) (sr : Region) (e : ModEntry) (es : List ModEntry) :
    lastModifications cf cr [(some sf, sr)] = ⟨[(some sf, sr)], some (some sf, sr)⟩
    ∧ ∃ b : ModEntry,
        (e :: es).get?
            (min ((e :: es).findIdx (fun en => differentModArea (some sf) en.1 sr en.2))
              es.length) = some b
        ∧ lastModifications cf cr ((some sf, sr) :: e :: es)
            = ⟨(if differentModArea (some sf) cf cr sr then [(some sf, sr)] else [])
                  ++ (e :: es).drop
                    (min ((e :: es).findIdx
                        (fun en => differentModArea (some sf) en.1 sr en.2))
                      es.length),
               some (if differentModArea (some sf) cf cr sr then (some sf, sr) else b)⟩ := by
  constructor
  · simp [lastModifications]
  · refine ⟨(scanBoundary (fun en => differentModArea (some sf) en.1 sr en.2) e es 0).2,
      scanBoundary_get _ es e 0, ?_⟩
    have hfst := scanBoundary_fst (fun en => differentModArea (some sf) en.1 sr en.2) es e 0
    rw [Nat.zero_add] at hfst
    have hmin_le : min ((e :: es).findIdx
          (fun en => differentModArea (some sf) en.1 sr en.2)) es.length ≤ es.length :=
      Nat.min_le_right _ _
    have hne : ((e :: es).drop
          (min ((e :: es).findIdx (fun en => differentModArea (some sf) en.1 sr en.2))
            es.length)).isEmpty = false := by
      cases hd : (e :: es).drop
          (min ((e :: es).findIdx (fun en => differentModArea (some sf) en.1 sr en.2))
            es.length) with
      | nil =>
        exfalso
        have hl := congrArg List.length hd
        simp only [List.length_drop, List.length_cons, List.length_nil] at hl
        omega
      | cons x xs => simp
    cases hin : differentModArea (some sf) cf cr sr with
    | true => simp [lastModifications, hin, hfst]
    | false => simp [lastModifications, hin, hfst, hne]

/-- C3 counterexample: stack `(f, 10), (f, 20), (g, 500)` with the cursor
at 15 in file `f`.  The cursor is inside the starting entry's modification
area (second conjunct), the run `(f, 10), (f, 20)` is removed — yet no
synthetic collapsed entry is re-inserted at the front: the resulting stack
is exactly the untouched boundary entry, and navigation goes to that
different-area boundary `(g, 500)` rather than to a collapsed entry of the
run, contradicting the claim that the collapse target is navigated to and
re-inserted, with the boundary entry used only when the cursor is already
outside the area. -/
theorem last_modifications_inside_area_cex :
    lastModifications (some "f") (15, 15)
        [(some "f", (10, 10)), (some "f", (20, 20)), (some "g", (500, 500))]
      = ⟨[(some "g", (500, 500))], some (some "g", (500, 500))⟩
    ∧ differentModArea (some "f") (some "f") (15, 15) (10, 10) = false := by decide
